import Mathlib

/-
  Verification development for `src/watcher.py` (openwebui-watcher).

  The Python program is shallowly embedded: the pure decision logic of
  `Syncer.sync_once`, `StateStore`, `Syncer.upload_file`,
  `Syncer.add_to_knowledge`, `Syncer.quarantine_file`,
  `Syncer.get_local_files` and `Syncer.get_quarantined_names` is translated
  into executable Lean definitions.  Network and filesystem effects are
  represented by explicit outcome parameters (the response a request would
  have produced, whether a move succeeded, ...), and the remote calls a pass
  issues are collected into an event trace.  Sizes are naturals; timestamps
  are integers (the source compares floats only with `==`, `!=` and `>=`,
  which the integer model preserves).
-/

namespace Watcher

/-- A local file record as produced by `Syncer.get_local_files`
    (watcher.py lines 330-336): size, modification time and display name
    (the basename of the relative path). -/
structure Meta where
  size : Nat
  mtime : Int
  name : String
deriving DecidableEq, Repr

/-- The per-path persisted record (the dict values under `files` in the
    state file).  Absent dict keys are `none`; `added` defaults to `False`
    in the source (`state.get("added", False)`). -/
structure SyncState where
  size : Option Nat := none
  mtime : Option Int := none
  name : Option String := none
  file_id : Option String := none
  added : Bool := false
  uploaded_size : Option Nat := none
  uploaded_mtime : Option Int := none
  blocked_reason : Option String := none
  blocked_size : Option Nat := none
  blocked_mtime : Option Int := none
  replace_id : Option String := none
deriving DecidableEq, Repr

/-- The store mapping relative path to `SyncState`
    (`StateStore.data["files"]`), as an insertion-ordered association list,
    mirroring a Python dict. -/
abbrev Store := List (String × SyncState)

/-- Python truthiness of an optional string (`if state.get("file_id"):`
    is false for a missing key and for the empty string). -/
def optTruthy : Option String → Bool
  | none => false
  | some s => !(s == "")

/-- `StateStore.get`: first (unique) binding for the key, `none` when the
    path has no entry (the source returns the empty dict, which is falsy). -/
def storeGet : Store → String → Option SyncState
  | [], _ => none
  | (k, v) :: rest, rel => if k = rel then some v else storeGet rest rel

/-- `StateStore.get` with the empty-record default (`.get(rel, {})`). -/
def storeGetD (st : Store) (rel : String) : SyncState :=
  (storeGet st rel).getD {}

/-- `StateStore.set`: dict assignment — replace the binding in place if the
    key exists, else append. -/
def storeSet : Store → String → SyncState → Store
  | [], rel, v => [(rel, v)]
  | (k, w) :: rest, rel, v =>
      if k = rel then (rel, v) :: rest else (k, w) :: storeSet rest rel v

/-- `StateStore.delete`: `dict.pop(rel, None)` — drop the binding. -/
def storeDelete : Store → String → Store
  | [], _ => []
  | (k, w) :: rest, rel =>
      if k = rel then rest else (k, w) :: storeDelete rest rel

/-- Fingerprint-equality with the previously recorded state
    (watcher.py line 504): `prev and prev.get("size") == meta["size"] and
    prev.get("mtime") == meta["mtime"]`.  A missing entry is falsy. -/
def sameAsPrev (prev : Option SyncState) (meta : Meta) : Bool :=
  match prev with
  | none => false
  | some p => p.size == some meta.size && p.mtime == some meta.mtime

/-- The stability classification of watcher.py lines 504-509:
    `(enabled and same and age >= stable_age) or
     (not enabled and age >= stable_age)`. -/
def isStable (enabled : Bool) (prev : Option SyncState) (meta : Meta)
    (now stableAge : Int) : Bool :=
  (enabled && sameAsPrev prev meta && decide (now - meta.mtime ≥ stableAge))
    || (!enabled && decide (now - meta.mtime ≥ stableAge))

/-- The per-file state rebuild of watcher.py lines 510-528: roll the
    blocked marker forward only while the fingerprint is unchanged, carry
    `file_id`, `added` and the uploaded fingerprint forward, and build the
    fresh payload dict (which has no `replace_id` key). -/
def refreshState (prev : Option SyncState) (meta : Meta) : SyncState :=
  let br := prev.bind (fun p => p.blocked_reason)
  let bs := prev.bind (fun p => p.blocked_size)
  let bm := prev.bind (fun p => p.blocked_mtime)
  let cleared :=
    optTruthy br && (!(bs == some meta.size) || !(bm == some meta.mtime))
  { size := some meta.size
    mtime := some meta.mtime
    name := some meta.name
    file_id := prev.bind (fun p => p.file_id)
    added := (prev.map (fun p => p.added)).getD false
    uploaded_size := prev.bind (fun p => p.uploaded_size)
    uploaded_mtime := prev.bind (fun p => p.uploaded_mtime)
    blocked_reason := if cleared then none else br
    blocked_size := if cleared then none else bs
    blocked_mtime := if cleared then none else bm
    replace_id := none }

/-- One iteration of the classification loop of watcher.py lines 502-530:
    read the previous state, append to `stable` if eligible, then (when the
    store is enabled) write the rebuilt state back. -/
def classifyStep (enabled : Bool) (now stableAge : Int)
    (acc : List (String × Meta) × Store) (x : String × Meta) :
    List (String × Meta) × Store :=
  (if isStable enabled (storeGet acc.2 x.1) x.2 now stableAge
    then acc.1 ++ [x] else acc.1,
   if enabled
    then storeSet acc.2 x.1 (refreshState (storeGet acc.2 x.1) x.2)
    else acc.2)

/-- The whole classification loop over the local listing. -/
def classify (enabled : Bool) (st : Store) (l : List (String × Meta))
    (now stableAge : Int) : List (String × Meta) × Store :=
  l.foldl (classifyStep enabled now stableAge) ([], st)

/-- The deletion set of watcher.py lines 532-536: everything remote when the
    eligible name set is empty but remote entries exist, else the remote
    entries whose display name is not in the eligible name set. -/
def computeToDelete (localNames : List String)
    (remoteEntries : List (String × String)) : List (String × String) :=
  if localNames.isEmpty && !remoteEntries.isEmpty then remoteEntries
  else remoteEntries.filter (fun p => !(localNames.contains p.1))

/-- Python dict built from a `(name, id)` pair list: the last binding for a
    key wins (later insertions overwrite). -/
def dictOfPairs (l : List (String × String)) (k : String) : Option String :=
  ((l.filter (fun p => p.1 == k)).getLast?).map (fun p => p.2)

/-- Occurrence count of a display name among the local files
    (watcher.py lines 491-493). -/
def nameCount (localFiles : List (String × Meta)) (n : String) : Nat :=
  (localFiles.filter (fun p => p.2.name == n)).length

/-- Accumulator of the action-selection loop of watcher.py lines 537-567. -/
structure StableLoopOut where
  store : Store
  toUpload : List (String × Meta)
  toAdd : List (String × Meta × String)
  blockedSkipped : Nat
deriving Repr

/-- The common tail of the action-selection loop (watcher.py lines 564-567):
    a file with a remote id but no confirmed attachment goes to the
    attach-only queue, everything else is queued for upload. -/
def stableTail (acc : StableLoopOut) (store : Store) (rel : String)
    (meta : Meta) (state : SyncState) : StableLoopOut :=
  if optTruthy state.file_id && !state.added then
    { acc with store := store
               toAdd := acc.toAdd ++ [(rel, meta, state.file_id.getD "")] }
  else
    { acc with store := store, toUpload := acc.toUpload ++ [(rel, meta)] }

/-- One iteration of the action-selection loop over a stable file
    (watcher.py lines 540-567): skip duplicate display names, skip blocked
    files, treat matching uploaded fingerprints as already synced, remember
    a same-named remote entry with a different fingerprint as `replace_id`,
    then dispatch to the attach-only or upload queue. -/
def stableStep (enabled : Bool) (remote : String → Option String)
    (dup : String → Bool) (acc : StableLoopOut) (x : String × Meta) :
    StableLoopOut :=
  let rel := x.1
  let meta := x.2
  if dup meta.name then acc
  else
    let state := storeGetD acc.store rel
    if optTruthy state.blocked_reason then
      { acc with blockedSkipped := acc.blockedSkipped + 1 }
    else
      let uploadedMatches :=
        state.uploaded_size == some meta.size
          && state.uploaded_mtime == some meta.mtime && state.added
      match remote meta.name with
      | some rid =>
          if uploadedMatches then
            let st := { state with file_id := some rid, added := true }
            { acc with store :=
                if enabled then storeSet acc.store rel st else acc.store }
          else
            let st := { state with replace_id := some rid }
            let store :=
              if enabled then storeSet acc.store rel st else acc.store
            stableTail acc store rel meta st
      | none => stableTail acc acc.store rel meta state

/-- The inputs one `sync_once` pass works from: the store (with its enabled
    flag), the discovered local listing, the remote `(name, id)` entries,
    the quarantined display names, the clock and the stability threshold. -/
structure PlanIn where
  enabled : Bool
  store : Store
  localFiles : List (String × Meta)
  remoteEntries : List (String × String)
  quarantinedNames : List String
  now : Int
  stableAge : Int

/-- Everything the planning phase of `sync_once` produces before any
    network call is issued. -/
structure PlanOut where
  stable : List (String × Meta)
  localNames : List String
  toDelete : List (String × String)
  toUpload : List (String × Meta)
  toAdd : List (String × Meta × String)
  store : Store
  blockedSkipped : Nat

/-- Stale-state pruning (watcher.py lines 498-501): entries for paths no
    longer present locally are dropped (dict iteration order preserved);
    skipped when the store is disabled. -/
def planStore1 (pin : PlanIn) : Store :=
  if pin.enabled then
    pin.store.filter (fun p => (pin.localFiles.map Prod.fst).contains p.1)
  else pin.store

/-- The classification loop applied to the pruned store. -/
def planClassified (pin : PlanIn) : List (String × Meta) × Store :=
  classify pin.enabled (planStore1 pin) pin.localFiles pin.now pin.stableAge

/-- Duplicate display names (watcher.py line 494). -/
def planDup (pin : PlanIn) : String → Bool :=
  fun n => decide (1 < nameCount pin.localFiles n)

/-- The eligible name set `local_names` (watcher.py line 496): local names
    unioned with the quarantined names. -/
def planLocalNames (pin : PlanIn) : List String :=
  (pin.localFiles.map (fun q => q.2.name)) ++ pin.quarantinedNames

/-- The action-selection loop run over the stable files. -/
def planLoop (pin : PlanIn) : StableLoopOut :=
  (planClassified pin).1.foldl
    (stableStep pin.enabled (dictOfPairs pin.remoteEntries) (planDup pin))
    ⟨(planClassified pin).2, [], [], 0⟩

/-- The planning phase of `Syncer.sync_once` (watcher.py lines 490-567):
    prune stale store entries, classify each local file, compute the
    duplicate display names, the eligible name set and the deletion set,
    then run the action-selection loop over the stable files. -/
def plan (pin : PlanIn) : PlanOut :=
  ⟨(planClassified pin).1, planLocalNames pin,
    computeToDelete (planLocalNames pin) pin.remoteEntries,
    (planLoop pin).toUpload, (planLoop pin).toAdd, (planLoop pin).store,
    (planLoop pin).blockedSkipped⟩

/-! ### Local scan and quarantine folder scan -/

/-- The sidecar suffix `self.failed_meta_suffix` (watcher.py line 128). -/
def metaSuffix : String := ".openwebui-error.json"

/-- A file of the watched tree: its directory components below the watch
    directory, its basename, size and modification time. -/
structure FsFile where
  dirs : List String
  name : String
  size : Nat
  mtime : Int
deriving DecidableEq, Repr

/-- The relative path `os.path.relpath(full, watch_dir)`. -/
def relOf (f : FsFile) : String :=
  String.intercalate "/" (f.dirs ++ [f.name])

/-- The `Meta` record `get_local_files` builds for a kept file. -/
def metaOf (f : FsFile) : Meta :=
  { size := f.size, mtime := f.mtime, name := f.name }

/-- ASCII lowercase of one character (`str.lower` on the ASCII range),
    written over `Nat` so that concrete scans evaluate in the kernel. -/
def charLower (c : Char) : Char :=
  if 65 ≤ c.toNat ∧ c.toNat ≤ 90 then Char.ofNat (c.toNat + 32) else c

/-- `str.lower()` on the character list of a string. -/
def strLower (s : String) : String :=
  ⟨s.data.map charLower⟩

/-- `str.startswith`, over the character lists. -/
def strStartsWith (s p : String) : Bool :=
  s.data.take p.data.length == p.data

/-- `str.endswith`, over the character lists. -/
def strEndsWith (s p : String) : Bool :=
  strStartsWith ⟨s.data.reverse⟩ ⟨p.data.reverse⟩

/-- Directory pruning of watcher.py lines 303-309: a directory is skipped
    when its lowercase name is the quarantine folder name or `ignore`, or
    when it starts with a dot. -/
def dirExcluded (failedDirName d : String) : Bool :=
  strLower d == strLower failedDirName || strLower d == "ignore"
    || strStartsWith d "."

/-- Per-file name filter of watcher.py lines 311-315: hidden files,
    temp/swap suffixes and the sidecar suffix are ignored. -/
def fileIgnoredName (name : String) : Bool :=
  strStartsWith name "." || strEndsWith name ".swp"
    || strEndsWith name ".tmp" || strEndsWith name "~"
    || strEndsWith name metaSuffix

/-- `Syncer.get_local_files` (watcher.py lines 300-337): walk the tree with
    the directory pruning above, drop ignored names and zero-byte files,
    and map each kept file to its relative path and `Meta`. -/
def getLocalFiles (failedDirName : String) (tree : List FsFile) :
    List (String × Meta) :=
  (tree.filter (fun f =>
      !(f.dirs.any (dirExcluded failedDirName))
        && !(fileIgnoredName f.name) && !(f.size == 0))).map
    (fun f => (relOf f, metaOf f))

/-- `Syncer.get_quarantined_names` (watcher.py lines 241-255): the basenames
    of all non-sidecar files below the quarantine folder. -/
def getQuarantinedNames (failedDirName : String) (tree : List FsFile) :
    List String :=
  (tree.filter (fun f =>
      f.dirs.head? == some failedDirName
        && !(strEndsWith f.name metaSuffix))).map (fun f => f.name)

/-! ### Execution of a pass: events and per-item steps -/

/-- A remote call or filesystem move issued while executing a pass.
    `deleteReplace` is the `delete_remote(state["replace_id"])` call of
    watcher.py lines 680 and 722; `deleteRemote` is the deletion-queue call
    of line 753. -/
inductive Ev
  | uploadOk (rel fid : String)
  | uploadPermFail (rel : String) (status : Nat)
  | uploadFail (rel : String)
  | attachOk (rel : String)
  | attachFail (rel : String)
  | quarantineMove (rel : String)
  | deleteReplace (rel fid : String)
  | deleteRemote (nm fid : String)
deriving DecidableEq, Repr

/-- Outcome of the `shutil.move` inside `quarantine_file`. -/
inductive MoveRes
  | ok
  | notFound
  | osErr
deriving DecidableEq, Repr

/-- The filesystem circumstances `quarantine_file` runs under. -/
structure QEnv where
  srcPresent : Bool
  srcUnderFailed : Bool
  ensureOk : Bool
  move : MoveRes
deriving Repr

/-- `Syncer._mark_blocked_file` (watcher.py lines 229-239): a no-op when the
    store is disabled, otherwise record the blocked marker, clear the remote
    id and the `added` flag and drop any pending `replace_id`. -/
def markBlocked (enabled : Bool) (store : Store) (rel : String) (meta : Meta)
    (reason : String) : Store :=
  if !enabled then store
  else
    let st := storeGetD store rel
    storeSet store rel
      { st with blocked_reason := some (reason.take 500)
                blocked_size := some meta.size
                blocked_mtime := some meta.mtime
                file_id := none
                added := false
                replace_id := none }

/-- `Syncer.quarantine_file` (watcher.py lines 257-297).  Returns whether
    the file now counts as quarantined, the updated store, and the move
    events performed. -/
def quarantineFile (enabled : Bool) (env : QEnv) (store : Store)
    (rel : String) (meta : Meta) (reason : String) :
    Bool × Store × List Ev :=
  if !env.srcPresent then (false, markBlocked enabled store rel meta reason, [])
  else if env.srcUnderFailed then (true, store, [])
  else if !env.ensureOk then
    (false, markBlocked enabled store rel meta reason, [])
  else
    match env.move with
    | MoveRes.ok =>
        (true, if enabled then storeDelete store rel else store,
          [Ev.quarantineMove rel])
    | MoveRes.notFound =>
        (false, if enabled then storeDelete store rel else store, [])
    | MoveRes.osErr =>
        (false, markBlocked enabled store rel meta reason, [])

/-- The format-error keyword list of `Syncer._looks_like_format_error`
    (watcher.py lines 215-226). -/
def formatKeywords : List String :=
  ["unsupported", "invalid", "format", "mime", "extension", "parse",
   "parser", "decode", "unstructured", "file type"]

/-- Substring test `token in lowered` for a non-empty token. -/
def containsToken (s token : String) : Bool :=
  2 ≤ (s.splitOn token).length

/-- `Syncer._looks_like_format_error`: false on a missing or empty message,
    else true when any keyword occurs in the lowercased message. -/
def looksLikeFormatError : Option String → Bool
  | none => false
  | some m =>
      if m == "" then false
      else formatKeywords.any (fun k => containsToken m.toLower k)

/-- The quarantine reason string `str(exc)` of a `PermanentUploadError`
    (watcher.py lines 85-89). -/
def permMsg (status : Nat) (detail : String) : String :=
  "upload rejected (" ++ toString status ++ "): " ++ detail

/-- Result of one `upload_file` call as seen by the upload loop. -/
inductive UpRes
  | permanent (status : Nat) (detail : String)
  | failed
  | okId (fid : String)
deriving DecidableEq, Repr

/-- Result of one `add_to_knowledge` call as seen by the loops: the call
    either raised a transport exception or returned `(ok, error)`. -/
inductive AttachRes
  | raised
  | returned (ok : Bool) (err : Option String)
deriving DecidableEq, Repr

/-- The external outcomes one upload-queue item runs against. -/
structure UpOutcome where
  up : UpRes
  attach : AttachRes
  q : QEnv
  replaceDelOk : Bool
deriving Repr

/-- The external outcomes one attach-queue item runs against. -/
structure AddOutcome where
  attach : AttachRes
  q : QEnv
  replaceDelOk : Bool
deriving Repr

/-- The body of the upload loop of watcher.py lines 601-690 for one queued
    file: quarantine on a permanent rejection, count other failures, and on
    success record the id, attach, and on attach success record the
    fingerprint and delete any remembered `replace_id`. -/
def uploadItem (enabled : Bool) (store : Store)
    (item : (String × Meta) × UpOutcome) : Store × List Ev :=
  let rel := item.1.1
  let meta := item.1.2
  let o := item.2
  match o.up with
  | UpRes.permanent s d =>
      let q := quarantineFile enabled o.q store rel meta (permMsg s d)
      (q.2.1, Ev.uploadPermFail rel s :: q.2.2)
  | UpRes.failed => (store, [Ev.uploadFail rel])
  | UpRes.okId fid =>
      let st0 := storeGetD store rel
      let st1 := { st0 with file_id := some fid, added := false,
                            blocked_reason := none, blocked_size := none,
                            blocked_mtime := none }
      let store1 := if enabled then storeSet store rel st1 else store
      match o.attach with
      | AttachRes.raised => (store1, [Ev.uploadOk rel fid])
      | AttachRes.returned false err =>
          if looksLikeFormatError err then
            let q := quarantineFile enabled o.q store1 rel meta
              ("knowledge add rejected: " ++ err.getD "unknown format error")
            (q.2.1, Ev.uploadOk rel fid :: Ev.attachFail rel :: q.2.2)
          else (store1, [Ev.uploadOk rel fid, Ev.attachFail rel])
      | AttachRes.returned true _ =>
          let st2 := { st1 with added := true,
                                uploaded_size := some meta.size,
                                uploaded_mtime := some meta.mtime }
          if enabled then
            let store2 := storeSet store1 rel st2
            if optTruthy st2.replace_id then
              let rid := st2.replace_id.getD ""
              if o.replaceDelOk then
                (storeSet store2 rel { st2 with replace_id := none },
                  [Ev.uploadOk rel fid, Ev.attachOk rel,
                   Ev.deleteReplace rel rid])
              else
                (store2,
                  [Ev.uploadOk rel fid, Ev.attachOk rel,
                   Ev.deleteReplace rel rid])
            else (store2, [Ev.uploadOk rel fid, Ev.attachOk rel])
          else (store1, [Ev.uploadOk rel fid, Ev.attachOk rel])

/-- The body of the attach-only loop of watcher.py lines 694-742 for one
    queued file. -/
def addItem (enabled : Bool) (store : Store)
    (item : (String × Meta × String) × AddOutcome) : Store × List Ev :=
  let rel := item.1.1
  let meta := item.1.2.1
  let o := item.2
  match o.attach with
  | AttachRes.raised => (store, [])
  | AttachRes.returned true _ =>
      let st0 := storeGetD store rel
      let st1 := { st0 with added := true,
                            uploaded_size := some meta.size,
                            uploaded_mtime := some meta.mtime,
                            blocked_reason := none, blocked_size := none,
                            blocked_mtime := none }
      if enabled then
        let store1 := storeSet store rel st1
        if optTruthy st1.replace_id then
          let rid := st1.replace_id.getD ""
          if o.replaceDelOk then
            (storeSet store1 rel { st1 with replace_id := none },
              [Ev.attachOk rel, Ev.deleteReplace rel rid])
          else (store1, [Ev.attachOk rel, Ev.deleteReplace rel rid])
        else (store1, [Ev.attachOk rel])
      else (store, [Ev.attachOk rel])
  | AttachRes.returned false err =>
      if looksLikeFormatError err then
        let q := quarantineFile enabled o.q store rel meta
          ("knowledge add rejected: " ++ err.getD "unknown format error")
        (q.2.1, Ev.attachFail rel :: q.2.2)
      else (store, [Ev.attachFail rel])

/-- Run a per-item step over a queue, threading the store and concatenating
    the event traces in order. -/
def runList {α : Type} (f : Store → α → Store × List Ev) (store : Store)
    (xs : List α) : Store × List Ev :=
  xs.foldl (fun acc x => ((f acc.1 x).1, acc.2 ++ (f acc.1 x).2)) (store, [])

/-- The execution phase of `sync_once`: the upload loop, the attach-only
    loop, then the deletion queue (watcher.py lines 601-763). -/
def runPass (enabled : Bool) (store : Store)
    (ups : List ((String × Meta) × UpOutcome))
    (adds : List ((String × Meta × String) × AddOutcome))
    (toDelete : List (String × String)) : Store × List Ev :=
  let r1 := runList (uploadItem enabled) store ups
  let r2 := runList (addItem enabled) r1.1 adds
  let e3 := toDelete.map (fun p => Ev.deleteRemote p.1 p.2)
  (r2.1, r1.2 ++ r2.2 ++ e3)

/-- One whole `sync_once` pass: plan, then (unless there is nothing to
    upload and nothing to delete, watcher.py line 571) execute the three
    loops, pairing each queued item with its external outcome. -/
def syncOnce (pin : PlanIn) (upOs : List UpOutcome)
    (addOs : List AddOutcome) : Store × List Ev :=
  let p := plan pin
  if p.toUpload.isEmpty && p.toDelete.isEmpty then (p.store, [])
  else runPass pin.enabled p.store (p.toUpload.zip upOs)
    (p.toAdd.zip addOs) p.toDelete

/-! ### The request executor, the upload pipeline and the attach call -/

/-- One network interaction as the oracle resolves it: an HTTP response
    with status, extracted error detail and optional `id` field, or a
    transport-level failure (`requests.RequestException`). -/
inductive NetResp
  | http (status : Nat) (detail : String) (fid : Option String)
  | transport
deriving DecidableEq, Repr

/-- The transient statuses `Syncer._request` retries
    (watcher.py line 160). -/
def retryStatus (s : Nat) : Bool :=
  s == 429 || s == 500 || s == 502 || s == 503 || s == 504

/-- `Syncer._request` (watcher.py lines 159-177), indexed by the number of
    attempts still available (the source iterates `attempt` from `0` to
    `retries - 1`; `attempt < retries - 1` holds exactly when more than one
    attempt remains).  Consumes one oracle response per attempt; returns the
    final response, or `none` when a transport failure is re-raised. -/
def reqLoop : Nat → List NetResp →
    Option (Nat × String × Option String) × List NetResp
  | 0, stream => (none, stream)
  | _ + 1, [] => (none, [])
  | remaining + 1, NetResp.http s d f :: rest =>
      if retryStatus s && decide (1 ≤ remaining) then reqLoop remaining rest
      else (some (s, d, f), rest)
  | remaining + 1, NetResp.transport :: rest =>
      if decide (1 ≤ remaining) then reqLoop remaining rest
      else (none, rest)

/-- Result of `Syncer.upload_file`. -/
inductive UpCallRes
  | okId (fid : String)
  | permanent (status : Nat) (detail : String)
  | httpErr (status : Nat)
  | transportErr
  | noId (detail : String)
  | exhausted
deriving DecidableEq, Repr

/-- `Syncer.upload_file` (watcher.py lines 403-434), indexed like `reqLoop`
    by the attempts still available.  Each attempt issues one `_request`;
    a 4xx/5xx status raises `HTTPError`: the permanent statuses become a
    `PermanentUploadError` immediately, others are retried while attempts
    remain; transport failures are retried likewise; a success response
    without a truthy `id` raises a `RuntimeError` that is not caught. -/
def upLoop (retries : Nat) : Nat → List NetResp → UpCallRes × List NetResp
  | 0, stream => (UpCallRes.exhausted, stream)
  | remaining + 1, stream =>
      let r := reqLoop retries stream
      match r.1 with
      | none =>
          if decide (1 ≤ remaining) then upLoop retries remaining r.2
          else (UpCallRes.transportErr, r.2)
      | some (s, d, f) =>
          if 400 ≤ s ∧ s < 600 then
            if s = 400 ∨ s = 413 ∨ s = 415 ∨ s = 422 then
              (UpCallRes.permanent s d, r.2)
            else if decide (1 ≤ remaining) then upLoop retries remaining r.2
            else (UpCallRes.httpErr s, r.2)
          else
            match f with
            | some fid =>
                if fid == "" then (UpCallRes.noId d, r.2)
                else (UpCallRes.okId fid, r.2)
            | none => (UpCallRes.noId d, r.2)

/-- `Syncer.upload_file` entered with its full attempt budget. -/
def uploadFile (retries : Nat) (stream : List NetResp) :
    UpCallRes × List NetResp :=
  upLoop retries retries stream

/-- The ordered request-body shapes `Syncer.add_to_knowledge` tries
    (watcher.py lines 438-444). -/
inductive AddPayloadShape
  | fileId
  | fileIds
  | fileIdMetadata
  | fileIdsMetadatas
  | fileIdMetadatasMetadata
deriving DecidableEq, Repr

/-- The attempt list, in source order. -/
def addPayloads : List AddPayloadShape :=
  [AddPayloadShape.fileId, AddPayloadShape.fileIds,
   AddPayloadShape.fileIdMetadata, AddPayloadShape.fileIdsMetadatas,
   AddPayloadShape.fileIdMetadatasMetadata]

/-- Result of `Syncer.add_to_knowledge`: first accepted shape, all shapes
    rejected (with the last recorded error), or a transport exception
    propagating out of `_request`. -/
inductive AddCallRes
  | success
  | failure (lastError : Option String)
  | transportException
deriving DecidableEq, Repr

/-- Abstraction of `str(exc)` for a `requests.HTTPError` raised by
    `raise_for_status` on status `s`. -/
def httpExcStr (s : Nat) (d : String) : String :=
  toString s ++ " error: " ++ d

/-- The shape-fallback loop of `Syncer.add_to_knowledge`
    (watcher.py lines 446-459): 2xx returns success; 400/404/422 records
    the detail and tries the next shape; any other 4xx/5xx is raised by
    `raise_for_status`, caught, recorded, and the next shape is tried; a
    non-error status outside the accepted set just falls through to the
    next shape; a transport failure from `_request` propagates. -/
def addLoop : List (AddPayloadShape × NetResp) → Option String → AddCallRes
  | [], le => AddCallRes.failure le
  | (_, NetResp.transport) :: _, _ => AddCallRes.transportException
  | (_, NetResp.http s d _) :: rest, le =>
      if s = 200 ∨ s = 201 ∨ s = 204 then AddCallRes.success
      else if s = 400 ∨ s = 404 ∨ s = 422 then
        addLoop rest (some (toString s ++ " " ++ d))
      else if 400 ≤ s ∧ s < 600 then addLoop rest (some (httpExcStr s d))
      else addLoop rest le

/-- `Syncer.add_to_knowledge`, with the oracle response per shape. -/
def addToKnowledge (resp : AddPayloadShape → NetResp) : AddCallRes :=
  addLoop (addPayloads.map (fun p => (p, resp p))) none

/-! ### StateStore.save as a write sequence -/

/-- The observable filesystem writes `StateStore.save` performs
    (watcher.py lines 64-73): `open(self.path, "w")` truncates the target
    file in place, then `json.dump` writes the serialized mapping into it.
    There is no temporary file and no rename. -/
inductive FsWrite
  | openTrunc (path : String)
  | writeContent (path : String) (content : String)
deriving DecidableEq, Repr

/-- The write sequence of one `save()` call on an enabled store. -/
def saveOps (path content : String) : List FsWrite :=
  [FsWrite.openTrunc path, FsWrite.writeContent path content]

/-- Effect of one write on a filesystem mapping paths to contents. -/
def applyOp (fs : String → Option String) : FsWrite → String → Option String
  | FsWrite.openTrunc p, q => if q = p then some "" else fs q
  | FsWrite.writeContent p c, q => if q = p then some c else fs q

/-- Effect of a prefix of the write sequence (a crash can interrupt the
    sequence after any prefix). -/
def applyOps (fs : String → Option String) (ops : List FsWrite) :
    String → Option String :=
  ops.foldl applyOp fs

/-! ### Trace-order predicate -/

/-- Every `deleteReplace` call for a path occurs strictly after an
    `attachOk` for the same path in the trace. -/
def repOrdered (tr : List Ev) : Prop :=
  ∀ (i : Nat) (rel rid : String),
    tr[i]? = some (Ev.deleteReplace rel rid) →
      ∃ j : Nat, j < i ∧ tr[j]? = some (Ev.attachOk rel)

/-! ### Concrete instances used by witnesses and counterexamples -/

/-- A one-file local listing: `a.txt`, 1 byte, modified at time 5. -/
def exMeta : Meta := { size := 1, mtime := 5, name := "a.txt" }

/-- The stored state after a pass whose attach succeeded but whose
    replace-deletion failed: uploaded fingerprint matches, `added` is true,
    and `replace_id` is still pending. -/
def exPendingReplace : SyncState :=
  { size := some 1, mtime := some 5, name := some "a.txt",
    file_id := some "NEW", added := true, uploaded_size := some 1,
    uploaded_mtime := some 5, replace_id := some "OLD" }

/-- The next pass over the unchanged file, with the pending `replace_id`
    in the store and both remote copies still listed. -/
def exPinC2 : PlanIn :=
  { enabled := true, store := [("a.txt", exPendingReplace)],
    localFiles := [("a.txt", exMeta)],
    remoteEntries := [("a.txt", "OLD"), ("a.txt", "NEW")],
    quarantinedNames := [], now := 100, stableAge := 10 }

/-- A response oracle whose first shape is answered with status 500 and
    whose second shape is accepted. -/
def exResp500then200 : AddPayloadShape → NetResp
  | AddPayloadShape.fileId => NetResp.http 500 "boom" none
  | _ => NetResp.http 200 "" none

/-- A filesystem with one previously saved state file. -/
def exFs : String → Option String :=
  fun q => if q = "state.json" then some "OLD" else none

/-- A tree whose only file sits inside the quarantine folder. -/
def exTreeQ : List FsFile :=
  [{ dirs := ["_upload_failed"], name := "a.txt", size := 1, mtime := 0 }]

/-- The pass inputs derived from `exTreeQ` with a same-named remote entry. -/
def exPinC9 : PlanIn :=
  { enabled := true, store := [],
    localFiles := getLocalFiles "_upload_failed" exTreeQ,
    remoteEntries := [("a.txt", "A")],
    quarantinedNames := getQuarantinedNames "_upload_failed" exTreeQ,
    now := 100, stableAge := 10 }

/-- A stored state whose fingerprint matches `exMeta` but which was never
    uploaded. -/
def exFreshState : SyncState :=
  { size := some 1, mtime := some 5, name := some "a.txt" }

/-- A tree whose only file sits inside an `ignore` directory. -/
def exTreeIgnore : List FsFile :=
  [{ dirs := ["ignore"], name := "ign.txt", size := 1, mtime := 0 }]

/-- The pass inputs derived from `exTreeIgnore` with a same-named remote
    entry. -/
def exPinIgnore : PlanIn :=
  { enabled := true, store := [],
    localFiles := getLocalFiles "_upload_failed" exTreeIgnore,
    remoteEntries := [("ign.txt", "B")],
    quarantinedNames := getQuarantinedNames "_upload_failed" exTreeIgnore,
    now := 100, stableAge := 10 }

/-- A pass over one stable never-uploaded file whose name exists remotely
    under id `OLD`. -/
def exPinReplace : PlanIn :=
  { enabled := true, store := [("a.txt", exFreshState)],
    localFiles := [("a.txt", exMeta)],
    remoteEntries := [("a.txt", "OLD")], quarantinedNames := [],
    now := 100, stableAge := 10 }

/-- A quarantine environment in which everything succeeds. -/
def exQEnvOk : QEnv :=
  { srcPresent := true, srcUnderFailed := false, ensureOk := true,
    move := MoveRes.ok }

/-- A quarantine environment in which the quarantine folder cannot be
    created. -/
def exQEnvNoDir : QEnv :=
  { srcPresent := true, srcUnderFailed := false, ensureOk := false,
    move := MoveRes.osErr }

/-- Upload succeeds, attach succeeds, replace-deletion succeeds. -/
def exUpOutcomeOk : UpOutcome :=
  { up := UpRes.okId "NEW", attach := AttachRes.returned true none,
    q := exQEnvOk, replaceDelOk := true }

/-- Upload succeeds, attach succeeds, replace-deletion fails. -/
def exUpOutcomeDelFail : UpOutcome :=
  { up := UpRes.okId "NEW", attach := AttachRes.returned true none,
    q := exQEnvOk, replaceDelOk := false }

/-- A pass input with two local files sharing the display name `dup.txt`
    and a same-named remote entry. -/
def exPinDup : PlanIn :=
  { enabled := true, store := [],
    localFiles :=
      [("x/dup.txt", { size := 1, mtime := 0, name := "dup.txt" }),
       ("y/dup.txt", { size := 2, mtime := 0, name := "dup.txt" })],
    remoteEntries := [("dup.txt", "D")], quarantinedNames := [],
    now := 100, stableAge := 10 }

/-- A disabled-store pass over one old-enough local file. -/
def exPinDisabled : PlanIn :=
  { enabled := false, store := [], localFiles := [("a.txt", exMeta)],
    remoteEntries := [], quarantinedNames := [], now := 100,
    stableAge := 10 }

/-- A pass input with an empty watch directory, nothing quarantined, and
    one remote entry. -/
def exPinEmptyLocal : PlanIn :=
  { enabled := true, store := [], localFiles := [],
    remoteEntries := [("old.txt", "A")], quarantinedNames := [],
    now := 0, stableAge := 0 }

/-- A trace is good when its replace-deletions follow a matching attach
    confirmation and it issues no deletion-queue call. -/
def goodTrace (tr : List Ev) : Prop :=
  repOrdered tr ∧ ∀ nm fid, Ev.deleteRemote nm fid ∉ tr

/-! ### Helper lemmas: the store -/

theorem mem_of_getElemOpt {α : Type} {l : List α} {n : Nat} {a : α}
    (h : l[n]? = some a) : a ∈ l := by
  obtain ⟨hlt, he⟩ := List.getElem?_eq_some_iff.mp h
  exact he ▸ List.getElem_mem hlt

theorem storeGet_set_self : ∀ (st : Store) (rel : String) (v : SyncState),
    storeGet (storeSet st rel v) rel = some v
  | [], rel, v => by simp [storeSet, storeGet]
  | (k, w) :: rest, rel, v => by
      by_cases h : k = rel
      · simp [storeSet, storeGet, h]
      · simp [storeSet, storeGet, h, storeGet_set_self rest rel v]

theorem storeGet_set_ne : ∀ (st : Store) (k rel : String) (v : SyncState),
    k ≠ rel → storeGet (storeSet st k v) rel = storeGet st rel
  | [], k, rel, v, h => by simp [storeSet, storeGet, h]
  | (k0, w) :: rest, k, rel, v, h => by
      by_cases h0 : k0 = k
      · subst h0
        simp [storeSet, storeGet, h]
      · by_cases h1 : k0 = rel
        · simp [storeSet, storeGet, h0, h1, Ne.symm h]
        · simp [storeSet, storeGet, h0, h1,
            storeGet_set_ne rest k rel v h]

theorem storeGet_filter_keys :
    ∀ (st : Store) (keys : List String) (rel : String),
      storeGet (st.filter (fun p => keys.contains p.1)) rel =
        if keys.contains rel then storeGet st rel else none
  | [], keys, rel => by simp [storeGet]
  | (k0, w) :: rest, keys, rel => by
      by_cases hc : k0 ∈ keys
      · by_cases h0 : k0 = rel
        · subst h0
          simp [List.filter_cons, hc, storeGet]
        · have ih := storeGet_filter_keys rest keys rel
          simp at ih
          simp [List.filter_cons, hc, storeGet, h0, ih]
      · by_cases h0 : k0 = rel
        · subst h0
          have ih := storeGet_filter_keys rest keys k0
          simp at ih
          simp [List.filter_cons, hc, storeGet, ih]
        · have ih := storeGet_filter_keys rest keys rel
          simp at ih
          simp [List.filter_cons, hc, storeGet, h0, ih]

/-! ### Helper lemmas: trace ordering -/

theorem repOrdered_nil : repOrdered [] := by
  intro i rel rid h
  simp at h

theorem repOrdered_append {t1 t2 : List Ev} (h1 : repOrdered t1)
    (h2 : repOrdered t2) : repOrdered (t1 ++ t2) := by
  intro i rel rid h
  by_cases hi : i < t1.length
  · rw [List.getElem?_append_left hi] at h
    obtain ⟨j, hj, hje⟩ := h1 i rel rid h
    exact ⟨j, hj, by rw [List.getElem?_append_left (lt_trans hj hi)]; exact hje⟩
  · push_neg at hi
    rw [List.getElem?_append_right hi] at h
    obtain ⟨j, hj, hje⟩ := h2 (i - t1.length) rel rid h
    refine ⟨t1.length + j, by omega, ?_⟩
    rw [List.getElem?_append_right (by omega)]
    simpa using hje

theorem repOrdered_of_no_rep {tr : List Ev}
    (h : ∀ rel rid, Ev.deleteReplace rel rid ∉ tr) : repOrdered tr := by
  intro i rel rid hi
  exact absurd (mem_of_getElemOpt hi) (h rel rid)

theorem repOrdered_up_at_del (rel fid rid : String) :
    repOrdered
      [Ev.uploadOk rel fid, Ev.attachOk rel, Ev.deleteReplace rel rid] := by
  intro i rel0 rid0 h
  match i with
  | 0 => simp at h
  | 1 => simp at h
  | 2 =>
      simp only [List.getElem?_cons_succ, List.getElem?_cons_zero,
        Option.some.injEq] at h
      refine ⟨1, by omega, ?_⟩
      simp only [List.getElem?_cons_succ, List.getElem?_cons_zero,
        Option.some.injEq]
      cases h
      rfl
  | n + 3 => simp at h

theorem repOrdered_at_del (rel rid : String) :
    repOrdered [Ev.attachOk rel, Ev.deleteReplace rel rid] := by
  intro i rel0 rid0 h
  match i with
  | 0 => simp at h
  | 1 =>
      simp only [List.getElem?_cons_succ, List.getElem?_cons_zero,
        Option.some.injEq] at h
      refine ⟨0, by omega, ?_⟩
      simp only [List.getElem?_cons_zero, Option.some.injEq]
      cases h
      rfl
  | n + 2 => simp at h

theorem goodTrace_nil : goodTrace [] :=
  ⟨repOrdered_nil, by intro nm fid h; simp at h⟩

theorem goodTrace_append {t1 t2 : List Ev} (h1 : goodTrace t1)
    (h2 : goodTrace t2) : goodTrace (t1 ++ t2) := by
  refine ⟨repOrdered_append h1.1 h2.1, ?_⟩
  intro nm fid h
  rcases List.mem_append.mp h with h | h
  · exact h1.2 nm fid h
  · exact h2.2 nm fid h

theorem goodTrace_of_no_special {tr : List Ev}
    (h : ∀ e ∈ tr, (∀ rel rid, e ≠ Ev.deleteReplace rel rid)
      ∧ (∀ nm fid, e ≠ Ev.deleteRemote nm fid)) : goodTrace tr := by
  refine ⟨repOrdered_of_no_rep ?_, ?_⟩
  · intro rel rid hmem
    exact (h _ hmem).1 rel rid rfl
  · intro nm fid hmem
    exact (h _ hmem).2 nm fid rfl

theorem repOrdered_cons {e : Ev} {t : List Ev}
    (he : ∀ rel rid, e ≠ Ev.deleteReplace rel rid) (ht : repOrdered t) :
    repOrdered (e :: t) := by
  intro i rel rid h
  match i with
  | 0 =>
      simp only [List.getElem?_cons_zero, Option.some.injEq] at h
      exact absurd h (he rel rid)
  | n + 1 =>
      rw [List.getElem?_cons_succ] at h
      obtain ⟨j, hj, hje⟩ := ht n rel rid h
      exact ⟨j + 1, by omega, by simpa using hje⟩

theorem goodTrace_cons {e : Ev} {t : List Ev}
    (he : (∀ rel rid, e ≠ Ev.deleteReplace rel rid)
      ∧ (∀ nm fid, e ≠ Ev.deleteRemote nm fid))
    (ht : goodTrace t) : goodTrace (e :: t) := by
  refine ⟨repOrdered_cons he.1 ht.1, ?_⟩
  intro nm fid hm
  rcases List.mem_cons.mp hm with h | h
  · exact he.2 nm fid h.symm
  · exact ht.2 nm fid h

theorem noSpecial_uploadOk (rel fid : String) :
    (∀ a b : String, Ev.uploadOk rel fid ≠ Ev.deleteReplace a b)
      ∧ ∀ a b : String, Ev.uploadOk rel fid ≠ Ev.deleteRemote a b :=
  ⟨by intro a b; simp, by intro a b; simp⟩

theorem noSpecial_uploadPermFail (rel : String) (s : Nat) :
    (∀ a b : String, Ev.uploadPermFail rel s ≠ Ev.deleteReplace a b)
      ∧ ∀ a b : String, Ev.uploadPermFail rel s ≠ Ev.deleteRemote a b :=
  ⟨by intro a b; simp, by intro a b; simp⟩

theorem noSpecial_uploadFail (rel : String) :
    (∀ a b : String, Ev.uploadFail rel ≠ Ev.deleteReplace a b)
      ∧ ∀ a b : String, Ev.uploadFail rel ≠ Ev.deleteRemote a b :=
  ⟨by intro a b; simp, by intro a b; simp⟩

theorem noSpecial_attachOk (rel : String) :
    (∀ a b : String, Ev.attachOk rel ≠ Ev.deleteReplace a b)
      ∧ ∀ a b : String, Ev.attachOk rel ≠ Ev.deleteRemote a b :=
  ⟨by intro a b; simp, by intro a b; simp⟩

theorem noSpecial_attachFail (rel : String) :
    (∀ a b : String, Ev.attachFail rel ≠ Ev.deleteReplace a b)
      ∧ ∀ a b : String, Ev.attachFail rel ≠ Ev.deleteRemote a b :=
  ⟨by intro a b; simp, by intro a b; simp⟩

theorem quarantine_evs (enabled : Bool) (env : QEnv) (store : Store)
    (rel : String) (meta : Meta) (reason : String) :
    (quarantineFile enabled env store rel meta reason).2.2 = []
      ∨ (quarantineFile enabled env store rel meta reason).2.2
          = [Ev.quarantineMove rel] := by
  cases h1 : env.srcPresent <;> cases h2 : env.srcUnderFailed <;>
    cases h3 : env.ensureOk <;> cases hm : env.move <;>
      simp [quarantineFile, h1, h2, h3, hm]

theorem quarantineFile_good (enabled : Bool) (env : QEnv) (store : Store)
    (rel : String) (meta : Meta) (reason : String) :
    goodTrace (quarantineFile enabled env store rel meta reason).2.2 := by
  rcases quarantine_evs enabled env store rel meta reason with h | h <;>
    rw [h]
  · exact goodTrace_nil
  · refine goodTrace_of_no_special ?_
    intro e he
    simp only [List.mem_singleton] at he
    subst he
    exact ⟨by intro a b; simp, by intro a b; simp⟩

theorem uploadItem_good (enabled : Bool) (store : Store)
    (it : (String × Meta) × UpOutcome) :
    goodTrace (uploadItem enabled store it).2 := by
  obtain ⟨⟨rel, meta⟩, o⟩ := it
  obtain ⟨up, attach, qe, dok⟩ := o
  cases up with
  | permanent s d =>
      simp only [uploadItem]
      exact goodTrace_cons (noSpecial_uploadPermFail rel s)
        (quarantineFile_good enabled qe store rel meta (permMsg s d))
  | failed =>
      simp only [uploadItem]
      exact goodTrace_cons (noSpecial_uploadFail rel) goodTrace_nil
  | okId fid =>
      cases attach with
      | raised =>
          simp only [uploadItem]
          exact goodTrace_cons (noSpecial_uploadOk rel fid) goodTrace_nil
      | returned ok err =>
          cases ok with
          | false =>
              cases hf : looksLikeFormatError err with
              | false =>
                  simp only [uploadItem, hf]
                  exact goodTrace_cons (noSpecial_uploadOk rel fid)
                    (goodTrace_cons (noSpecial_attachFail rel) goodTrace_nil)
              | true =>
                  simp only [uploadItem, hf]
                  exact goodTrace_cons (noSpecial_uploadOk rel fid)
                    (goodTrace_cons (noSpecial_attachFail rel)
                      (quarantineFile_good enabled qe _ rel meta _))
          | true =>
              cases enabled with
              | false =>
                  simp only [uploadItem]
                  exact goodTrace_cons (noSpecial_uploadOk rel fid)
                    (goodTrace_cons (noSpecial_attachOk rel) goodTrace_nil)
              | true =>
                  simp only [uploadItem]
                  cases ht : optTruthy (storeGetD store rel).replace_id with
                  | false =>
                      simp only [ht, Bool.false_eq_true, if_false]
                      exact goodTrace_cons (noSpecial_uploadOk rel fid)
                        (goodTrace_cons (noSpecial_attachOk rel)
                          goodTrace_nil)
                  | true =>
                      simp only [ht, if_true]
                      cases dok <;>
                        simp only [Bool.false_eq_true, if_false, if_true,
                          reduceIte] <;>
                        exact ⟨repOrdered_up_at_del rel fid _,
                          by intro nm f h; simp at h⟩

theorem addItem_good (enabled : Bool) (store : Store)
    (it : (String × Meta × String) × AddOutcome) :
    goodTrace (addItem enabled store it).2 := by
  obtain ⟨⟨rel, meta, fid⟩, o⟩ := it
  obtain ⟨attach, qe, dok⟩ := o
  cases attach with
  | raised => exact goodTrace_nil
  | returned ok err =>
      cases ok with
      | false =>
          cases hf : looksLikeFormatError err with
          | false =>
              simp only [addItem, hf]
              exact goodTrace_cons (noSpecial_attachFail rel) goodTrace_nil
          | true =>
              simp only [addItem, hf]
              exact goodTrace_cons (noSpecial_attachFail rel)
                (quarantineFile_good enabled qe _ rel meta _)
      | true =>
          cases enabled with
          | false =>
              simp only [addItem]
              exact goodTrace_cons (noSpecial_attachOk rel) goodTrace_nil
          | true =>
              simp only [addItem]
              cases ht : optTruthy (storeGetD store rel).replace_id with
              | false =>
                  simp only [ht, Bool.false_eq_true, if_false]
                  exact goodTrace_cons (noSpecial_attachOk rel)
                    goodTrace_nil
              | true =>
                  simp only [ht, if_true]
                  cases dok <;>
                    simp only [Bool.false_eq_true, if_false, if_true,
                      reduceIte] <;>
                    exact ⟨repOrdered_at_del rel _,
                      by intro nm f h; simp at h⟩

theorem runList_good {α : Type} {f : Store → α → Store × List Ev}
    (hf : ∀ st x, goodTrace (f st x).2) (store : Store) (xs : List α) :
    goodTrace (runList f store xs).2 := by
  suffices h : ∀ (ys : List α) (acc : Store × List Ev), goodTrace acc.2 →
      goodTrace ((ys.foldl
        (fun acc x => ((f acc.1 x).1, acc.2 ++ (f acc.1 x).2)) acc).2) by
    exact h xs (store, []) goodTrace_nil
  intro ys
  induction ys with
  | nil =>
      intro acc h
      simpa using h
  | cons x rest ih =>
      intro acc h
      exact ih _ (goodTrace_append h (hf acc.1 x))

theorem computeToDelete_name_not_mem {lnames : List String}
    {remote : List (String × String)} {p : String × String}
    (h : p ∈ computeToDelete lnames remote) : p.1 ∉ lnames := by
  unfold computeToDelete at h
  split at h
  · rename_i hc
    have hl : lnames = [] := by
      have := (Bool.and_eq_true _ _).mp hc
      exact List.isEmpty_iff.mp this.1
    simp [hl]
  · have hb := (List.mem_filter.mp h).2
    simpa using hb

theorem plan_toDelete_def (pin : PlanIn) :
    (plan pin).toDelete
      = computeToDelete (plan pin).localNames pin.remoteEntries := rfl

theorem plan_localNames_def (pin : PlanIn) :
    (plan pin).localNames
      = (pin.localFiles.map (fun q => q.2.name)) ++ pin.quarantinedNames :=
  rfl

/-- C1: on any pass, whatever the external outcomes, a `delete_remote` call
    on a remembered `replace_id` is issued only after an attach of the new
    content has been confirmed for the same path (`added` set), and the
    deletion queue never touches an entry whose display name belongs to a
    local file — so the old remote id of a replaced file is never deleted
    before, or without, a confirmed attachment. -/
theorem C1_replace_deleted_only_after_attach (pin : PlanIn)
    (upOs : List UpOutcome) (addOs : List AddOutcome) :
    repOrdered (syncOnce pin upOs addOs).2 ∧
      ∀ x ∈ pin.localFiles, ∀ fid : String,
        Ev.deleteRemote x.2.name fid ∉ (syncOnce pin upOs addOs).2 := by
  simp only [syncOnce]
  split
  · refine ⟨repOrdered_nil, ?_⟩
    intro x hx fid h
    simp at h
  · simp only [runPass]
    have h1 := runList_good (f := uploadItem pin.enabled)
      (fun st x => uploadItem_good pin.enabled st x) (plan pin).store
      ((plan pin).toUpload.zip upOs)
    have h2 := runList_good (f := addItem pin.enabled)
      (fun st x => addItem_good pin.enabled st x)
      (runList (uploadItem pin.enabled) (plan pin).store
        ((plan pin).toUpload.zip upOs)).1
      ((plan pin).toAdd.zip addOs)
    constructor
    · refine repOrdered_append (repOrdered_append h1.1 h2.1) ?_
      refine repOrdered_of_no_rep ?_
      intro rel rid hm
      obtain ⟨p, _, hp⟩ := List.mem_map.mp hm
      simp at hp
    · intro x hx fid h
      rcases List.mem_append.mp h with h | h
      · rcases List.mem_append.mp h with h | h
        · exact h1.2 _ _ h
        · exact h2.2 _ _ h
      · obtain ⟨p, hmem, hp⟩ := List.mem_map.mp h
        have hnm : p.1 = x.2.name := by
          simp only [Ev.deleteRemote.injEq] at hp
          exact hp.1
        have hmem2 : p ∈ computeToDelete (plan pin).localNames
            pin.remoteEntries := by
          rw [← plan_toDelete_def pin]
          exact hmem
        have hnot := computeToDelete_name_not_mem hmem2
        rw [hnm, plan_localNames_def pin] at hnot
        exact hnot (List.mem_append_left _
          (List.mem_map.mpr ⟨x, hx, rfl⟩))

/-- Witness for C1: the replace scenario evaluated concretely — upload of
    the new content, then its attach confirmation, then the deletion of the
    old id, in that order. -/
theorem C1_witness :
    (syncOnce exPinReplace [exUpOutcomeOk] []).2
        = [Ev.uploadOk "a.txt" "NEW", Ev.attachOk "a.txt",
           Ev.deleteReplace "a.txt" "OLD"] ∧
      repOrdered (syncOnce exPinReplace [exUpOutcomeOk] []).2 :=
  ⟨rfl,
    (C1_replace_deleted_only_after_attach exPinReplace [exUpOutcomeOk] []).1⟩

/-- C2 counterexample: a pending `replace_id` left by a failed
    replace-deletion is discarded by the next pass over the unchanged file —
    the rebuilt state carries no `replace_id`, nothing is queued, and the
    old remote id is not scheduled for deletion. -/
theorem C2_counterexample :
    exPendingReplace.replace_id = some "OLD"
      ∧ (storeGet (plan exPinC2).store "a.txt").map
          (fun s => s.replace_id) = some none
      ∧ (plan exPinC2).toDelete = []
      ∧ (plan exPinC2).toUpload = []
      ∧ (plan exPinC2).toAdd = [] :=
  ⟨rfl, rfl, rfl, rfl, rfl⟩

/-- C2 amended: a failed replace-deletion leaves `replace_id` set in the
    stored state for the remainder of that pass; but the per-file state
    rebuild of the next pass produces a record with no `replace_id` for
    every input, so the pending deletion is discarded rather than retried. -/
theorem C2_failed_replace_delete_kept_then_dropped :
    (∀ (prev : Option SyncState) (meta : Meta),
        (refreshState prev meta).replace_id = none) ∧
    (∀ (store : Store) (rel : String) (meta : Meta) (fid rid : String)
        (err : Option String) (o : UpOutcome),
        o.up = UpRes.okId fid → o.attach = AttachRes.returned true err →
        o.replaceDelOk = false →
        (storeGetD store rel).replace_id = some rid → rid ≠ "" →
        (storeGet (uploadItem true store ((rel, meta), o)).1 rel).map
          (fun s => s.replace_id) = some (some rid)) := by
  constructor
  · intro prev meta
    rfl
  · intro store rel meta fid rid err o hup hat hdel hrep hne
    obtain ⟨up, attach, qe, dok⟩ := o
    simp only at hup hat hdel
    subst hup
    subst hat
    subst hdel
    have hb : (rid == "") = false := beq_eq_false_iff_ne.mpr hne
    simp [uploadItem, hrep, optTruthy, hb, storeGet_set_self]

/-- Witness for the amended C2: the concrete failed-deletion pass keeps
    `replace_id`, and the concrete rebuild drops it. -/
theorem C2_amended_witness :
    (refreshState (some exPendingReplace) exMeta).replace_id = none
      ∧ (storeGet (uploadItem true [("a.txt", exPendingReplace)]
            (("a.txt", exMeta), exUpOutcomeDelFail)).1 "a.txt").map
          (fun s => s.replace_id) = some (some "OLD") :=
  ⟨C2_failed_replace_delete_kept_then_dropped.1 (some exPendingReplace)
      exMeta,
    C2_failed_replace_delete_kept_then_dropped.2
      [("a.txt", exPendingReplace)] "a.txt" exMeta "NEW" "OLD" none
      exUpOutcomeDelFail rfl rfl rfl rfl (by decide)⟩

/-- C3 counterexample: the first shape is answered with status 500, which
    is neither 2xx nor in 400/404/422, yet the attempt list is not aborted —
    the second shape is tried and accepted. -/
theorem C3_counterexample :
    exResp500then200 AddPayloadShape.fileId = NetResp.http 500 "boom" none
      ∧ addToKnowledge exResp500then200 = AddCallRes.success :=
  ⟨rfl, rfl⟩

/-- C3 amended: 2xx accepts and stops; 400/404/422 records the detail and
    tries the next shape; any other 4xx/5xx error status is caught and also
    tries the next shape with the error recorded — it does not abort; only
    a transport failure aborts the attempt list; exhausting every shape
    surfaces a failure with the last recorded detail. -/
theorem C3_attach_shape_fallback :
    (∀ (p : AddPayloadShape) (rest : List (AddPayloadShape × NetResp))
        (le : Option String) (s : Nat) (d : String) (f : Option String),
        s = 200 ∨ s = 201 ∨ s = 204 →
        addLoop ((p, NetResp.http s d f) :: rest) le
          = AddCallRes.success) ∧
    (∀ (p : AddPayloadShape) (rest : List (AddPayloadShape × NetResp))
        (le : Option String) (s : Nat) (d : String) (f : Option String),
        s = 400 ∨ s = 404 ∨ s = 422 →
        addLoop ((p, NetResp.http s d f) :: rest) le
          = addLoop rest (some (toString s ++ " " ++ d))) ∧
    (∀ (p : AddPayloadShape) (rest : List (AddPayloadShape × NetResp))
        (le : Option String) (s : Nat) (d : String) (f : Option String),
        ¬(s = 200 ∨ s = 201 ∨ s = 204) → ¬(s = 400 ∨ s = 404 ∨ s = 422) →
        400 ≤ s → s < 600 →
        addLoop ((p, NetResp.http s d f) :: rest) le
          = addLoop rest (some (httpExcStr s d))) ∧
    (∀ (p : AddPayloadShape) (rest : List (AddPayloadShape × NetResp))
        (le : Option String),
        addLoop ((p, NetResp.transport) :: rest) le
          = AddCallRes.transportException) ∧
    (∀ le : Option String, addLoop [] le = AddCallRes.failure le) := by
  refine ⟨?_, ?_, ?_, ?_, ?_⟩
  · intro p rest le s d f h
    rcases h with h | h | h <;> subst h <;> simp [addLoop]
  · intro p rest le s d f h
    rcases h with h | h | h <;> subst h <;> simp [addLoop]
  · intro p rest le s d f h1 h2 h3 h4
    simp only [addLoop]
    rw [if_neg h1, if_neg h2, if_pos ⟨h3, h4⟩]
  · intro p rest le
    rfl
  · intro le
    rfl

/-- Witness for the amended C3: each branch evaluated at a concrete
    response. -/
theorem C3_attach_shape_fallback_witness :
    addLoop [(AddPayloadShape.fileId, NetResp.http 200 "" none)] none
        = AddCallRes.success
      ∧ addLoop [(AddPayloadShape.fileId, NetResp.http 404 "nf" none)] none
          = addLoop [] (some (toString 404 ++ " " ++ "nf"))
      ∧ addLoop [(AddPayloadShape.fileId, NetResp.http 500 "boom" none)]
            none
          = addLoop [] (some (httpExcStr 500 "boom")) :=
  ⟨C3_attach_shape_fallback.1 AddPayloadShape.fileId [] none 200 "" none
      (Or.inl rfl),
    C3_attach_shape_fallback.2.1 AddPayloadShape.fileId [] none 404 "nf"
      none (Or.inr (Or.inl rfl)),
    C3_attach_shape_fallback.2.2.1 AddPayloadShape.fileId [] none 500
      "boom" none (by decide) (by decide) (by decide) (by decide)⟩

/-- C4 counterexample: interrupting `save` right after the truncating open
    leaves the state file empty — the previously saved copy is destroyed by
    a crash mid-save, so the write is not write-then-replace. -/
theorem C4_counterexample :
    exFs "state.json" = some "OLD"
      ∧ applyOps exFs ((saveOps "state.json" "NEW").take 1) "state.json"
          = some "" :=
  ⟨rfl, rfl⟩

/-- C4 amended: `save` writes the mapping in place — a truncating open of
    the state file itself followed by the content write, with no temporary
    file and no rename; an uninterrupted save leaves the new content, but
    the interruption point after the open leaves the file empty rather than
    the previous copy. -/
theorem C4_save_writes_in_place :
    ∀ (fs : String → Option String) (p c : String),
      saveOps p c = [FsWrite.openTrunc p, FsWrite.writeContent p c]
        ∧ applyOps fs (saveOps p c) p = some c
        ∧ applyOps fs ((saveOps p c).take 1) p = some "" := by
  intro fs p c
  refine ⟨rfl, ?_, ?_⟩ <;> simp [saveOps, applyOps, applyOp]

/-! ### Helper lemmas: the classification loop -/

theorem classifyStep_stab_mono (enabled : Bool) (now a : Int)
    (acc : List (String × Meta) × Store) (y x : String × Meta)
    (h : x ∈ acc.1) : x ∈ (classifyStep enabled now a acc y).1 := by
  simp only [classifyStep]
  split
  · exact List.mem_append_left _ h
  · exact h

theorem classifyStep_stab_sub (enabled : Bool) (now a : Int)
    (acc : List (String × Meta) × Store) (y x : String × Meta)
    (h : x ∈ (classifyStep enabled now a acc y).1) :
    x ∈ acc.1 ∨ x = y := by
  simp only [classifyStep] at h
  split at h
  · rcases List.mem_append.mp h with h | h
    · exact Or.inl h
    · exact Or.inr (List.mem_singleton.mp h)
  · exact Or.inl h

theorem classify_fold_stab_sub (enabled : Bool) (now a : Int) :
    ∀ (l : List (String × Meta)) (acc : List (String × Meta) × Store)
      (x : String × Meta),
      x ∈ (l.foldl (classifyStep enabled now a) acc).1 →
        x ∈ acc.1 ∨ x ∈ l
  | [], acc, x, h => Or.inl h
  | y :: rest, acc, x, h => by
      rcases classify_fold_stab_sub enabled now a rest _ x h with h | h
      · rcases classifyStep_stab_sub enabled now a acc y x h with h | h
        · exact Or.inl h
        · exact Or.inr (h ▸ List.mem_cons_self y rest)
      · exact Or.inr (List.mem_cons_of_mem y h)

theorem classifyStep_mem_ne (enabled : Bool) (now a : Int)
    (acc : List (String × Meta) × Store) (y : String × Meta)
    (rel : String) (meta : Meta) (h : y.1 ≠ rel) :
    ((rel, meta) ∈ (classifyStep enabled now a acc y).1 ↔
      (rel, meta) ∈ acc.1) := by
  constructor
  · intro hm
    rcases classifyStep_stab_sub enabled now a acc y _ hm with hm | hm
    · exact hm
    · exact absurd (congrArg Prod.fst hm).symm h
  · exact classifyStep_stab_mono enabled now a acc y _

theorem classifyStep_store_get_ne (enabled : Bool) (now a : Int)
    (acc : List (String × Meta) × Store) (y : String × Meta)
    (rel : String) (h : y.1 ≠ rel) :
    storeGet (classifyStep enabled now a acc y).2 rel
      = storeGet acc.2 rel := by
  simp only [classifyStep]
  split
  · exact storeGet_set_ne _ _ _ _ h
  · rfl

theorem classify_fold_mem_notkey (enabled : Bool) (now a : Int) :
    ∀ (l : List (String × Meta)) (acc : List (String × Meta) × Store)
      (rel : String) (meta : Meta), rel ∉ l.map Prod.fst →
      ((rel, meta) ∈ (l.foldl (classifyStep enabled now a) acc).1 ↔
        (rel, meta) ∈ acc.1)
  | [], acc, rel, meta, _ => Iff.rfl
  | y :: rest, acc, rel, meta, hk => by
      have hk1 : y.1 ≠ rel := by
        intro hcon
        exact hk (by simp [← hcon])
      have hk2 : rel ∉ rest.map Prod.fst := by
        intro hcon
        exact hk (by simp [hcon])
      rw [List.foldl_cons,
        classify_fold_mem_notkey enabled now a rest _ rel meta hk2,
        classifyStep_mem_ne enabled now a acc y rel meta hk1]

theorem classify_fold_mem_iff (enabled : Bool) (now a : Int) :
    ∀ (l : List (String × Meta)) (acc : List (String × Meta) × Store)
      (rel : String) (meta : Meta),
      (l.map Prod.fst).Nodup → (rel, meta) ∈ l →
      ((rel, meta) ∈ (l.foldl (classifyStep enabled now a) acc).1 ↔
        (rel, meta) ∈ acc.1 ∨
          isStable enabled (storeGet acc.2 rel) meta now a = true)
  | [], _, rel, meta, _, hmem => absurd hmem (List.not_mem_nil _)
  | y :: rest, acc, rel, meta, hnd, hmem => by
      have hnd2 : (y.1 :: rest.map Prod.fst).Nodup := by simpa using hnd
      obtain ⟨hy, hndr⟩ := List.nodup_cons.mp hnd2
      by_cases hk : y.1 = rel
      · have hxy : y = (rel, meta) := by
          rcases List.mem_cons.mp hmem with h | h
          · exact h.symm
          · exfalso
            apply hy
            rw [hk]
            exact List.mem_map.mpr ⟨(rel, meta), h, rfl⟩
        subst hxy
        have hrest : rel ∉ rest.map Prod.fst := by
          simpa [hk] using hy
        rw [List.foldl_cons,
          classify_fold_mem_notkey enabled now a rest _ rel meta hrest]
        by_cases hs :
            isStable enabled (storeGet acc.2 rel) meta now a = true
        · simp [classifyStep, hs]
        · simp [classifyStep, hs]
      · have hmem2 : (rel, meta) ∈ rest := by
          rcases List.mem_cons.mp hmem with h | h
          · exact absurd (congrArg Prod.fst h).symm hk
          · exact h
        rw [List.foldl_cons,
          classify_fold_mem_iff enabled now a rest _ rel meta hndr hmem2,
          classifyStep_mem_ne enabled now a acc y rel meta hk,
          classifyStep_store_get_ne enabled now a acc y rel hk]

/-- C6: a local file is classified stable exactly when the store is
    disabled or its size and modification time match the last recorded
    state for its path, and in addition its age is at least
    `stable_age_seconds`. -/
theorem C6_stable_iff (pin : PlanIn) (rel : String) (meta : Meta)
    (hnd : (pin.localFiles.map Prod.fst).Nodup)
    (hmem : (rel, meta) ∈ pin.localFiles) :
    ((rel, meta) ∈ (plan pin).stable ↔
      ((pin.enabled = false
          ∨ sameAsPrev (storeGet pin.store rel) meta = true)
        ∧ pin.stableAge ≤ pin.now - meta.mtime)) := by
  have hplan : (plan pin).stable
      = (pin.localFiles.foldl
          (classifyStep pin.enabled pin.now pin.stableAge)
          ([], if pin.enabled
            then pin.store.filter
              (fun p => (pin.localFiles.map Prod.fst).contains p.1)
            else pin.store)).1 := rfl
  rw [hplan, classify_fold_mem_iff pin.enabled pin.now pin.stableAge
    pin.localFiles _ rel meta hnd hmem]
  have hget : storeGet (if pin.enabled
      then pin.store.filter
        (fun p => (pin.localFiles.map Prod.fst).contains p.1)
      else pin.store) rel = storeGet pin.store rel := by
    split
    · rw [storeGet_filter_keys]
      have hc : rel ∈ pin.localFiles.map Prod.fst :=
        List.mem_map.mpr ⟨(rel, meta), hmem, rfl⟩
      simp [hc]
    · rfl
  simp only [List.not_mem_nil, false_or, hget]
  cases he : pin.enabled <;>
    simp [isStable, he, sameAsPrev, and_comm]

/-- Witness for C6: the fresh-state replace scenario, whose only file is
    stable because its fingerprint matches the stored record and it is old
    enough. -/
theorem C6_stable_iff_witness :
    (exPinReplace.localFiles.map Prod.fst).Nodup
      ∧ ("a.txt", exMeta) ∈ exPinReplace.localFiles
      ∧ (("a.txt", exMeta) ∈ (plan exPinReplace).stable ↔
          ((exPinReplace.enabled = false
              ∨ sameAsPrev (storeGet exPinReplace.store "a.txt") exMeta
                  = true)
            ∧ exPinReplace.stableAge
                ≤ exPinReplace.now - exMeta.mtime)) :=
  ⟨by decide, by decide,
    C6_stable_iff exPinReplace "a.txt" exMeta (by decide) (by decide)⟩

/-- C7: the deletion set is exactly the remote entries whose display name
    occurs neither among the local display names nor among the quarantined
    names; and when both name sets are empty the whole remote set is
    scheduled. -/
theorem C7_deletion_set (pin : PlanIn) :
    (plan pin).toDelete = pin.remoteEntries.filter
        (fun p => !((pin.localFiles.map (fun q => q.2.name)).contains p.1)
          && !(pin.quarantinedNames.contains p.1))
      ∧ ((pin.localFiles.map (fun q => q.2.name))
            ++ pin.quarantinedNames = []
          → (plan pin).toDelete = pin.remoteEntries) := by
  constructor
  · rw [plan_toDelete_def, plan_localNames_def]
    unfold computeToDelete
    split
    · rename_i hc
      have h1 := ((Bool.and_eq_true _ _).mp hc).1
      have hl := List.isEmpty_iff.mp h1
      have ha := (List.append_eq_nil.mp hl).1
      have hb := (List.append_eq_nil.mp hl).2
      simp [ha, hb]
    · apply List.filter_congr
      intro p hp
      by_cases h1 : p.1 ∈ pin.localFiles.map (fun q => q.2.name) <;>
        by_cases h2 : p.1 ∈ pin.quarantinedNames <;>
          simp [List.mem_append, h1, h2]
  · intro h
    rw [plan_toDelete_def, plan_localNames_def, h]
    cases hr : pin.remoteEntries with
    | nil => simp [computeToDelete]
    | cons r rs => simp [computeToDelete]

/-- Witness for C7: an empty watch directory with one remote entry — the
    whole remote set is scheduled for deletion. -/
theorem C7_deletion_set_witness :
    (plan exPinEmptyLocal).toDelete = exPinEmptyLocal.remoteEntries
      ∧ (plan exPinEmptyLocal).toDelete = [("old.txt", "A")] :=
  ⟨(C7_deletion_set exPinEmptyLocal).2 rfl, rfl⟩

/-! ### Helper lemmas: the action-selection loop -/

theorem stableTail_toUpload_sub (acc : StableLoopOut) (store : Store)
    (rel : String) (meta : Meta) (st : SyncState) (y : String × Meta)
    (h : y ∈ (stableTail acc store rel meta st).toUpload) :
    y ∈ acc.toUpload ∨ y = (rel, meta) := by
  simp only [stableTail] at h
  split at h
  · exact Or.inl h
  · rcases List.mem_append.mp h with h | h
    · exact Or.inl h
    · exact Or.inr (List.mem_singleton.mp h)

theorem stableTail_toAdd_sub (acc : StableLoopOut) (store : Store)
    (rel : String) (meta : Meta) (st : SyncState)
    (y : String × Meta × String)
    (h : y ∈ (stableTail acc store rel meta st).toAdd) :
    y ∈ acc.toAdd ∨ (y.1, y.2.1) = (rel, meta) := by
  simp only [stableTail] at h
  split at h
  · rcases List.mem_append.mp h with h | h
    · exact Or.inl h
    · have := List.mem_singleton.mp h
      subst this
      exact Or.inr rfl
  · exact Or.inl h

theorem stableStep_toUpload_sub (enabled : Bool)
    (remote : String → Option String) (dup : String → Bool)
    (acc : StableLoopOut) (x y : String × Meta)
    (h : y ∈ (stableStep enabled remote dup acc x).toUpload) :
    y ∈ acc.toUpload ∨ (y = x ∧ dup x.2.name = false) := by
  obtain ⟨rel, meta⟩ := x
  simp only [stableStep] at h
  split at h
  · exact Or.inl h
  · rename_i hd
    split at h
    · exact Or.inl h
    · split at h
      · split at h
        · exact Or.inl h
        · rcases stableTail_toUpload_sub _ _ _ _ _ _ h with h | h
          · exact Or.inl h
          · exact Or.inr ⟨h, by simpa using hd⟩
      · rcases stableTail_toUpload_sub _ _ _ _ _ _ h with h | h
        · exact Or.inl h
        · exact Or.inr ⟨h, by simpa using hd⟩

theorem stableStep_toAdd_sub (enabled : Bool)
    (remote : String → Option String) (dup : String → Bool)
    (acc : StableLoopOut) (x : String × Meta) (y : String × Meta × String)
    (h : y ∈ (stableStep enabled remote dup acc x).toAdd) :
    y ∈ acc.toAdd ∨ ((y.1, y.2.1) = x ∧ dup x.2.name = false) := by
  obtain ⟨rel, meta⟩ := x
  simp only [stableStep] at h
  split at h
  · exact Or.inl h
  · rename_i hd
    split at h
    · exact Or.inl h
    · split at h
      · split at h
        · exact Or.inl h
        · rcases stableTail_toAdd_sub _ _ _ _ _ _ h with h | h
          · exact Or.inl h
          · exact Or.inr ⟨h, by simpa using hd⟩
      · rcases stableTail_toAdd_sub _ _ _ _ _ _ h with h | h
        · exact Or.inl h
        · exact Or.inr ⟨h, by simpa using hd⟩

theorem stableStep_toUpload_mono (enabled : Bool)
    (remote : String → Option String) (dup : String → Bool)
    (acc : StableLoopOut) (x : String × Meta) (y : String × Meta)
    (h : y ∈ acc.toUpload) :
    y ∈ (stableStep enabled remote dup acc x).toUpload := by
  obtain ⟨rel, meta⟩ := x
  simp only [stableStep, stableTail]
  split
  · exact h
  · split
    · exact h
    · split
      · split
        · exact h
        · split
          · exact h
          · exact List.mem_append_left _ h
      · split
        · exact h
        · exact List.mem_append_left _ h

theorem stable_fold_toUpload_mono (enabled : Bool)
    (remote : String → Option String) (dup : String → Bool) :
    ∀ (l : List (String × Meta)) (acc : StableLoopOut) (y : String × Meta),
      y ∈ acc.toUpload →
      y ∈ (l.foldl (stableStep enabled remote dup) acc).toUpload
  | [], _, _, h => h
  | x :: rest, acc, y, h =>
      stable_fold_toUpload_mono enabled remote dup rest _ y
        (stableStep_toUpload_mono enabled remote dup acc x y h)

theorem stable_fold_toUpload_sub (enabled : Bool)
    (remote : String → Option String) (dup : String → Bool) :
    ∀ (l : List (String × Meta)) (acc : StableLoopOut) (y : String × Meta),
      y ∈ (l.foldl (stableStep enabled remote dup) acc).toUpload →
        y ∈ acc.toUpload ∨ (y ∈ l ∧ dup y.2.name = false)
  | [], _, _, h => Or.inl h
  | x :: rest, acc, y, h => by
      rcases stable_fold_toUpload_sub enabled remote dup rest _ y h
        with h | ⟨h1, h2⟩
      · rcases stableStep_toUpload_sub enabled remote dup acc x y h
          with h | ⟨h1, h2⟩
        · exact Or.inl h
        · subst h1
          exact Or.inr ⟨List.mem_cons_self _ _, h2⟩
      · exact Or.inr ⟨List.mem_cons_of_mem _ h1, h2⟩

theorem stable_fold_toAdd_sub (enabled : Bool)
    (remote : String → Option String) (dup : String → Bool) :
    ∀ (l : List (String × Meta)) (acc : StableLoopOut)
      (y : String × Meta × String),
      y ∈ (l.foldl (stableStep enabled remote dup) acc).toAdd →
        y ∈ acc.toAdd ∨ ((y.1, y.2.1) ∈ l ∧ dup y.2.1.name = false)
  | [], _, _, h => Or.inl h
  | x :: rest, acc, y, h => by
      rcases stable_fold_toAdd_sub enabled remote dup rest _ y h
        with h | ⟨h1, h2⟩
      · rcases stableStep_toAdd_sub enabled remote dup acc x y h
          with h | ⟨h1, h2⟩
        · exact Or.inl h
        · refine Or.inr ⟨?_, ?_⟩
          · rw [h1]
            exact List.mem_cons_self _ _
          · rw [← h1] at h2
            simpa using h2
      · exact Or.inr ⟨List.mem_cons_of_mem _ h1, h2⟩

theorem beq_none_some {α : Type} [BEq α] (a : α) :
    ((none : Option α) == some a) = false := rfl

theorem stableStep_store_disabled (remote : String → Option String)
    (dup : String → Bool) (acc : StableLoopOut) (x : String × Meta) :
    (stableStep false remote dup acc x).store = acc.store := by
  obtain ⟨rel, meta⟩ := x
  simp only [stableStep, stableTail, Bool.false_eq_true, if_false]
  split
  · rfl
  · split
    · rfl
    · split
      · split
        · rfl
        · split <;> rfl
      · split <;> rfl

theorem stableStep_self_toUpload (remote : String → Option String)
    (dup : String → Bool) (acc : StableLoopOut) (x : String × Meta)
    (hd : dup x.2.name = false) (hget : storeGet acc.store x.1 = none) :
    (stableStep false remote dup acc x).toUpload
      = acc.toUpload ++ [x] := by
  obtain ⟨rel, meta⟩ := x
  simp only at hd hget
  cases hr : remote meta.name with
  | none =>
      simp [stableStep, stableTail, hd, storeGetD, hget, hr, optTruthy]
  | some rid =>
      simp [stableStep, stableTail, hd, storeGetD, hget, hr, optTruthy,
        beq_none_some]

theorem stable_fold_self_toUpload (remote : String → Option String)
    (dup : String → Bool) :
    ∀ (l : List (String × Meta)) (acc : StableLoopOut) (x : String × Meta),
      x ∈ l → dup x.2.name = false → storeGet acc.store x.1 = none →
      x ∈ (l.foldl (stableStep false remote dup) acc).toUpload
  | [], _, _, hx, _, _ => absurd hx (List.not_mem_nil _)
  | y :: rest, acc, x, hx, hd, hget => by
      rcases List.mem_cons.mp hx with h | h
      · subst h
        apply stable_fold_toUpload_mono false remote dup rest
        rw [stableStep_self_toUpload remote dup acc x hd hget]
        exact List.mem_append_right _ (List.mem_singleton.mpr rfl)
      · apply stable_fold_self_toUpload remote dup rest _ x h hd
        rw [stableStep_store_disabled]
        exact hget

theorem classify_fold_store_disabled (now a : Int) :
    ∀ (l : List (String × Meta)) (acc : List (String × Meta) × Store),
      (l.foldl (classifyStep false now a) acc).2 = acc.2
  | [], _ => rfl
  | y :: rest, acc => by
      rw [List.foldl_cons, classify_fold_store_disabled now a rest]
      simp [classifyStep]

theorem nameCount_pos_mem {l : List (String × Meta)} {nm : String}
    (h : 0 < nameCount l nm) : nm ∈ l.map (fun q => q.2.name) := by
  unfold nameCount at h
  have hne : l.filter (fun p => p.2.name == nm) ≠ [] := by
    intro hcon
    rw [hcon] at h
    simp at h
  obtain ⟨p, hp⟩ := List.exists_mem_of_ne_nil _ hne
  have hm := List.mem_filter.mp hp
  exact List.mem_map.mpr ⟨p, hm.1, by simpa using hm.2⟩

/-- C8: a display name shared by more than one local relative path is never
    queued for upload or attach, and no remote entry bearing that name is
    scheduled for deletion. -/
theorem C8_duplicate_name_skipped (pin : PlanIn) (nm : String)
    (hdup : 1 < nameCount pin.localFiles nm) :
    (∀ y ∈ (plan pin).toUpload, y.2.name ≠ nm)
      ∧ (∀ y ∈ (plan pin).toAdd, y.2.1.name ≠ nm)
      ∧ (∀ q ∈ (plan pin).toDelete, q.1 ≠ nm) := by
  refine ⟨?_, ?_, ?_⟩
  · intro y hy hcon
    have hy2 : y ∈ ((planClassified pin).1.foldl
        (stableStep pin.enabled (dictOfPairs pin.remoteEntries)
          (planDup pin)) ⟨(planClassified pin).2, [], [], 0⟩).toUpload := hy
    rcases stable_fold_toUpload_sub pin.enabled
        (dictOfPairs pin.remoteEntries) (planDup pin)
        (planClassified pin).1 _ y hy2 with h | ⟨_, h2⟩
    · exact absurd h (List.not_mem_nil _)
    · rw [hcon] at h2
      simp [planDup] at h2
      omega
  · intro y hy hcon
    have hy2 : y ∈ ((planClassified pin).1.foldl
        (stableStep pin.enabled (dictOfPairs pin.remoteEntries)
          (planDup pin)) ⟨(planClassified pin).2, [], [], 0⟩).toAdd := hy
    rcases stable_fold_toAdd_sub pin.enabled
        (dictOfPairs pin.remoteEntries) (planDup pin)
        (planClassified pin).1 _ y hy2 with h | ⟨_, h2⟩
    · exact absurd h (List.not_mem_nil _)
    · rw [hcon] at h2
      simp [planDup] at h2
      omega
  · intro q hq hcon
    have hq2 : q ∈ computeToDelete (planLocalNames pin)
        pin.remoteEntries := hq
    apply computeToDelete_name_not_mem hq2
    rw [hcon]
    unfold planLocalNames
    exact List.mem_append_left _ (nameCount_pos_mem (by omega))

/-- Witness for C8: two local files named `dup.txt` and a same-named remote
    entry — nothing is uploaded, attached or deleted under that name. -/
theorem C8_duplicate_name_skipped_witness :
    1 < nameCount exPinDup.localFiles "dup.txt"
      ∧ ((∀ y ∈ (plan exPinDup).toUpload, y.2.name ≠ "dup.txt")
        ∧ (∀ y ∈ (plan exPinDup).toAdd, y.2.1.name ≠ "dup.txt")
        ∧ (∀ q ∈ (plan exPinDup).toDelete, q.1 ≠ "dup.txt"))
      ∧ (plan exPinDup).toDelete = [] :=
  ⟨by decide, C8_duplicate_name_skipped exPinDup "dup.txt" (by decide),
    rfl⟩

/-- C10: with the store disabled, the blocked-state fallback is a no-op —
    `markBlocked` changes nothing, `quarantine_file` without a movable
    source or without a creatable quarantine folder returns false leaving
    store and filesystem untouched — and a stable, non-duplicate file with
    no stored state is queued for upload again on the next pass. -/
theorem C10_disabled_quarantine_noop :
    (∀ (store : Store) (rel : String) (meta : Meta) (reason : String),
        markBlocked false store rel meta reason = store)
      ∧ (∀ (env : QEnv) (store : Store) (rel : String) (meta : Meta)
            (reason : String), env.srcPresent = false →
          quarantineFile false env store rel meta reason
            = (false, store, []))
      ∧ (∀ (env : QEnv) (store : Store) (rel : String) (meta : Meta)
            (reason : String), env.srcPresent = true →
          env.srcUnderFailed = false → env.ensureOk = false →
          quarantineFile false env store rel meta reason
            = (false, store, []))
      ∧ (∀ (pin : PlanIn) (x : String × Meta), pin.enabled = false →
          x ∈ (plan pin).stable → planDup pin x.2.name = false →
          storeGet pin.store x.1 = none →
          x ∈ (plan pin).toUpload) := by
  refine ⟨?_, ?_, ?_, ?_⟩
  · intro store rel meta reason
    rfl
  · intro env store rel meta reason h1
    simp [quarantineFile, h1, markBlocked]
  · intro env store rel meta reason h1 h2 h3
    simp [quarantineFile, h1, h2, h3, markBlocked]
  · intro pin x he hx hd hget
    have hst : (planClassified pin).2 = pin.store := by
      unfold planClassified classify planStore1
      rw [he]
      rw [classify_fold_store_disabled pin.now pin.stableAge
        pin.localFiles _]
      simp
    show x ∈ (planLoop pin).toUpload
    unfold planLoop
    rw [he]
    apply stable_fold_self_toUpload (dictOfPairs pin.remoteEntries)
      (planDup pin) (planClassified pin).1 _ x hx hd
    rw [show (StableLoopOut.mk (planClassified pin).2 [] [] 0).store
      = (planClassified pin).2 from rfl, hst]
    exact hget

/-- Witness for C10: the disabled-store pass with an unreachable quarantine
    folder — quarantine is a no-op and the stable file is queued for
    upload. -/
theorem C10_disabled_quarantine_noop_witness :
    exPinDisabled.enabled = false
      ∧ quarantineFile false exQEnvNoDir [] "a.txt" exMeta "bad"
          = (false, [], [])
      ∧ ("a.txt", exMeta) ∈ (plan exPinDisabled).toUpload :=
  ⟨rfl,
    C10_disabled_quarantine_noop.2.2.1 exQEnvNoDir [] "a.txt" exMeta "bad"
      rfl rfl rfl,
    C10_disabled_quarantine_noop.2.2.2 exPinDisabled ("a.txt", exMeta) rfl
      (by decide) (by decide) rfl⟩

/-! ### Helper lemmas: the local scan -/

theorem dirExcluded_self (fd : String) : dirExcluded fd fd = true := by
  simp [dirExcluded]

theorem getLocalFiles_mem_iff (fd : String) (tree : List FsFile)
    (r : String) (m : Meta) :
    ((r, m) ∈ getLocalFiles fd tree ↔
      ∃ f, f ∈ tree ∧ f.dirs.any (dirExcluded fd) = false
        ∧ fileIgnoredName f.name = false ∧ f.size ≠ 0
        ∧ relOf f = r ∧ metaOf f = m) := by
  unfold getLocalFiles
  constructor
  · intro h
    obtain ⟨f, hf, he⟩ := List.mem_map.mp h
    have hfil := List.mem_filter.mp hf
    have h3 := hfil.2
    simp only [Bool.and_eq_true, Bool.not_eq_true'] at h3
    obtain ⟨⟨h31, h32⟩, h33⟩ := h3
    obtain ⟨hr, hm⟩ := Prod.mk.injEq .. ▸ he
    exact ⟨f, hfil.1, h31, h32, by simpa using h33, hr, hm⟩
  · rintro ⟨f, hf, h1, h2, h3, h4, h5⟩
    refine List.mem_map.mpr ⟨f, List.mem_filter.mpr ⟨hf, ?_⟩, ?_⟩
    · simp [h1, h2, h3]
    · rw [h4, h5]

theorem plan_toUpload_sub_local (pin : PlanIn) (y : String × Meta)
    (hy : y ∈ (plan pin).toUpload) : y ∈ pin.localFiles := by
  have hy2 : y ∈ ((planClassified pin).1.foldl
      (stableStep pin.enabled (dictOfPairs pin.remoteEntries)
        (planDup pin)) ⟨(planClassified pin).2, [], [], 0⟩).toUpload := hy
  rcases stable_fold_toUpload_sub pin.enabled
      (dictOfPairs pin.remoteEntries) (planDup pin)
      (planClassified pin).1 _ y hy2 with h | ⟨h1, _⟩
  · exact absurd h (List.not_mem_nil _)
  · have h2 : y ∈ (pin.localFiles.foldl
        (classifyStep pin.enabled pin.now pin.stableAge)
        ([], planStore1 pin)).1 := h1
    rcases classify_fold_stab_sub pin.enabled pin.now pin.stableAge
        pin.localFiles _ y h2 with h | h
    · exact absurd h (List.not_mem_nil _)
    · exact h

/-- C5: an upload answered with status 400, 413, 415 or 422 consumes a
    single request and surfaces immediately as a permanent error carrying
    the status and detail; quarantining then performs exactly one move and
    removes the state entry; and once every file bearing the relative path
    lies below the quarantine folder, the path is absent from the next scan
    and from the next upload queue. -/
theorem C5_permanent_upload_quarantined (retries s : Nat) (d : String)
    (f : Option String) (rest : List NetResp) (env : QEnv) (store : Store)
    (rel : String) (meta : Meta) (reason : String) (fd : String)
    (tree : List FsFile)
    (h1 : 1 ≤ retries) (hs : s = 400 ∨ s = 413 ∨ s = 415 ∨ s = 422)
    (henv : env.srcPresent = true ∧ env.srcUnderFailed = false
      ∧ env.ensureOk = true ∧ env.move = MoveRes.ok)
    (htree : ∀ g ∈ tree, relOf g = rel → fd ∈ g.dirs) :
    uploadFile retries (NetResp.http s d f :: rest)
        = (UpCallRes.permanent s d, rest)
      ∧ quarantineFile true env store rel meta reason
          = (true, storeDelete store rel, [Ev.quarantineMove rel])
      ∧ (∀ m : Meta, (rel, m) ∉ getLocalFiles fd tree)
      ∧ (∀ (pin : PlanIn) (m : Meta),
          pin.localFiles = getLocalFiles fd tree →
          (rel, m) ∉ (plan pin).toUpload) := by
  have hscan : ∀ m : Meta, (rel, m) ∉ getLocalFiles fd tree := by
    intro m hmem
    obtain ⟨g, hg, hexc, _, _, hrel, _⟩ :=
      (getLocalFiles_mem_iff fd tree rel m).mp hmem
    have hin : fd ∈ g.dirs := htree g hg hrel
    have : g.dirs.any (dirExcluded fd) = true :=
      List.any_eq_true.mpr ⟨fd, hin, dirExcluded_self fd⟩
    rw [hexc] at this
    exact Bool.false_ne_true this
  refine ⟨?_, ?_, hscan, ?_⟩
  · obtain ⟨r, rfl⟩ : ∃ r, retries = r + 1 :=
      ⟨retries - 1, by omega⟩
    rcases hs with hs | hs | hs | hs <;> subst hs <;>
      simp [uploadFile, upLoop, reqLoop, retryStatus]
  · obtain ⟨h2, h3, h4, h5⟩ := henv
    simp [quarantineFile, h2, h3, h4, h5]
  · intro pin m hloc hmem
    have := plan_toUpload_sub_local pin (rel, m) hmem
    rw [hloc] at this
    exact hscan m this

/-- Witness for C5: a 422-rejected upload, a successful quarantine move,
    and the quarantined tree whose scan no longer lists the path. -/
theorem C5_permanent_upload_quarantined_witness :
    uploadFile 3 [NetResp.http 422 "bad" none]
        = (UpCallRes.permanent 422 "bad", [])
      ∧ quarantineFile true exQEnvOk [("a.txt", exFreshState)] "a.txt"
          exMeta "quarantined"
        = (true, [], [Ev.quarantineMove "a.txt"])
      ∧ (∀ m : Meta,
          ("a.txt", m) ∉ getLocalFiles "_upload_failed" exTreeQ) := by
  have h := C5_permanent_upload_quarantined 3 422 "bad" none []
    exQEnvOk [("a.txt", exFreshState)] "a.txt" exMeta "quarantined"
    "_upload_failed" exTreeQ (by decide) (by decide)
    ⟨rfl, rfl, rfl, rfl⟩ (by decide)
  refine ⟨h.1, ?_, h.2.2.1⟩
  rw [h.2.1]
  rfl

/-- C9 counterexample: the only copy of `a.txt` sits inside the quarantine
    folder; it is excluded from the local scan, but its basename counts as
    a quarantined name, so the same-named remote entry is not scheduled for
    deletion — contradicting the claim that such names free the remote
    entry for deletion. -/
theorem C9_counterexample :
    getLocalFiles "_upload_failed" exTreeQ = []
      ∧ getQuarantinedNames "_upload_failed" exTreeQ = ["a.txt"]
      ∧ exPinC9.remoteEntries = [("a.txt", "A")]
      ∧ (plan exPinC9).toDelete = [] :=
  ⟨by decide, by decide, rfl, by decide⟩

/-- C9 amended: files below an `ignore` directory (case-insensitive), below
    a dot-prefixed directory or below the quarantine folder are excluded
    from the local scan and never queued for upload; names that occur in no
    eligible set leave the same-named remote entries in the deletion set;
    but files below the quarantine folder contribute their basenames to the
    quarantined-name set, which protects same-named remote entries from
    deletion. -/
theorem C9_scan_exclusions :
    (∀ (fd : String) (tree : List FsFile) (r : String) (m : Meta),
        (r, m) ∈ getLocalFiles fd tree ↔
          ∃ f, f ∈ tree ∧ f.dirs.any (dirExcluded fd) = false
            ∧ fileIgnoredName f.name = false ∧ f.size ≠ 0
            ∧ relOf f = r ∧ metaOf f = m)
      ∧ (∀ (fd : String) (tree : List FsFile) (f : FsFile), f ∈ tree →
          f.dirs.head? = some fd → strEndsWith f.name metaSuffix = false →
          f.name ∈ getQuarantinedNames fd tree)
      ∧ (∀ (pin : PlanIn) (nm fid : String), nm ∈ pin.quarantinedNames →
          (nm, fid) ∉ (plan pin).toDelete)
      ∧ (∀ (pin : PlanIn) (nm fid : String),
          nm ∉ (plan pin).localNames → (nm, fid) ∈ pin.remoteEntries →
          (nm, fid) ∈ (plan pin).toDelete) := by
  refine ⟨getLocalFiles_mem_iff, ?_, ?_, ?_⟩
  · intro fd tree f hf hh hs
    refine List.mem_map.mpr ⟨f, List.mem_filter.mpr ⟨hf, ?_⟩, rfl⟩
    simp [hh, hs]
  · intro pin nm fid hq hmem
    have hq2 : (nm, fid) ∈ computeToDelete (planLocalNames pin)
        pin.remoteEntries := hmem
    apply computeToDelete_name_not_mem hq2
    unfold planLocalNames
    exact List.mem_append_right _ hq
  · intro pin nm fid hnot hmem
    show (nm, fid) ∈ computeToDelete (planLocalNames pin) pin.remoteEntries
    unfold computeToDelete
    split
    · exact hmem
    · refine List.mem_filter.mpr ⟨hmem, ?_⟩
      simpa using hnot

/-- Witness for the amended C9: the quarantined copy protects the remote
    entry, while the ignored copy leaves its remote entry deletable. -/
theorem C9_scan_exclusions_witness :
    "a.txt" ∈ getQuarantinedNames "_upload_failed" exTreeQ
      ∧ (∀ fid : String, ("a.txt", fid) ∉ (plan exPinC9).toDelete)
      ∧ ("ign.txt", "B") ∈ (plan exPinIgnore).toDelete :=
  ⟨by decide,
    fun fid => C9_scan_exclusions.2.2.1 exPinC9 "a.txt" fid (by decide),
    C9_scan_exclusions.2.2.2 exPinIgnore "ign.txt" "B" (by decide)
      (by decide)⟩

end Watcher
